import Mathlib

/-!
A shallow embedding of the `imaps-api` backend (Django + Graphene): the data
model from `core/migrations/0001_initial.py`, the signup / login / refresh
mutations from `core/mutations.py`, and the query resolvers from
`core/queries.py`.  Parts of the repository that are not present under `src/`
(`core/models.py`, `core/forms.py`, and the group / invitation / deletion /
password-reset mutation resolvers) are modelled from the specification and
marked as such in their doc comments.
-/

namespace IMaps

/-- A user row, following the `User` model of `0001_initial.py`
(id, username, email, password hash, nullable last_login, creation_time,
name) plus the password-reset fields exercised by the reset flow
(`password_reset_token`, `password_reset_token_expiry`); the token is
`Option` so that an invalidated/never-issued token matches no string. -/
structure User where
  id : Nat
  username : String
  email : String
  name : String
  password : String
  last_login : Option Nat
  creation_time : Nat
  password_reset_token : Option String
  password_reset_token_expiry : Nat
deriving DecidableEq, Repr

/-- A group row (`Group` model): id, unique name, description, and the two
many-to-many sets `users` (members) and `admins`, stored as lists of user
ids. -/
structure Group where
  id : Nat
  name : String
  description : String
  users : List Nat
  admins : List Nat
deriving DecidableEq, Repr

/-- A pending group invitation (`GroupInvitation` model): id plus foreign
keys to the invited user and the group. -/
structure GroupInvitation where
  id : Nat
  user : Nat
  group : Nat
deriving DecidableEq, Repr

/-- A collection: id, owning user (`owned_collections` foreign key), the
users it is shared with (the `collections` many-to-many), and its
`private` flag. -/
structure Collection where
  id : Nat
  owner : Nat
  sharedWith : List Nat
  isPrivate : Bool
deriving DecidableEq, Repr

/-- The relational state the mutations act on. -/
structure DB where
  users : List User
  groups : List Group
  invitations : List GroupInvitation
  collections : List Collection
deriving DecidableEq, Repr

/-! ### JWT model -/

/-- A decoded JWT payload: subject (user id), issue time, expiry time, as in
the tokens checked by `test_user_model.py`. -/
structure JwtPayload where
  sub : Nat
  iat : Nat
  expires : Nat
deriving DecidableEq, Repr

/-- The raw string carried in an `Authorization` header or the
`refresh_token` cookie, viewed through the JWT decoder: it is the empty
string, an unparseable non-empty string, or a well-formed JWT signed with
some secret. -/
inductive TokenStr where
  | empty
  | garbled (s : String)
  | jwt (payload : JwtPayload) (secret : String)
deriving DecidableEq, Repr

/-- The server's signing secret (`settings.SECRET_KEY`), abstract here. -/
def SECRET_KEY : String := "django-secret-key"

/-- Modelled from the spec: `User.make_access_jwt` from the missing
`core/models.py` — a JWT for the user signed with the server secret,
expiring 900 seconds after issue. -/
def make_access_jwt (uid now : Nat) : TokenStr :=
  .jwt ⟨uid, now, now + 900⟩ SECRET_KEY

/-- Modelled from the spec: `User.make_refresh_jwt` from the missing
`core/models.py` — a JWT for the user signed with the server secret,
expiring 31536000 seconds (one year) after issue. -/
def make_refresh_jwt (uid now : Nat) : TokenStr :=
  .jwt ⟨uid, now, now + 31536000⟩ SECRET_KEY

/-- Modelled from the spec: `User.from_token` from the missing
`core/models.py`.  Returns the token's user only for a well-formed JWT
signed with the server secret, not yet expired, whose subject names an
existing user; `None` for a missing, malformed, forged, expired or
unknown-subject token. -/
def User_from_token (db : DB) (t : Option TokenStr) (now : Nat) : Option User :=
  match t with
  | some (.jwt p s) =>
      if s = SECRET_KEY ∧ now < p.expires then
        db.users.find? (fun u => u.id = p.sub)
      else none
  | _ => none

/-! ### Login (`LoginMutation.mutate`, `core/mutations.py` lines 35-43) -/

/-- The observable outcome of a login request: the GraphQL result (access
token or the structured error raised), the database afterwards, and the
refresh cookie installed by the request (if any). -/
structure LoginOutcome where
  result : Except (List (String × String)) TokenStr
  db : DB
  refreshCookie : Option TokenStr
deriving Repr

/-- Mutation `LoginMutation.mutate`: look up the first user with the given username;
if one exists and `check_password` accepts the supplied password against
the stored hash, install a refresh-token cookie, stamp `last_login` with
the current time and return an access token; otherwise raise
`{"username": "Invalid credentials"}` and change nothing.  `cp` is the
external `check_password` primitive (password, stored hash → ok). -/
def login_mutate (cp : String → String → Bool) (db : DB)
    (username password : String) (now : Nat) : LoginOutcome :=
  match db.users.find? (fun u => u.username = username) with
  | some user =>
      if cp password user.password then
        { result := .ok (make_access_jwt user.id now),
          db := { db with
            users := db.users.map (fun u =>
              if u.id = user.id then { u with last_login := some now } else u) },
          refreshCookie := some (make_refresh_jwt user.id now) }
      else
        { result := .error [("username", "Invalid credentials")],
          db := db, refreshCookie := none }
  | none =>
      { result := .error [("username", "Invalid credentials")],
        db := db, refreshCookie := none }

/-! ### Refresh (`RefreshMutation.mutate`, `core/mutations.py` lines 51-59) -/

/-- Outcome of the token-refresh mutation: a fresh access token plus a fresh
refresh-token cookie, or a structured error with no cookie set. -/
inductive RefreshResult where
  | ok (accessToken : TokenStr) (refreshCookie : TokenStr)
  | err (errors : List (String × String))
deriving DecidableEq, Repr

/-- Mutation `RefreshMutation.mutate`: read the `refresh_token` cookie; a missing or
empty cookie (Python falsiness of `COOKIES.get`) raises "No refresh token
supplied"; a cookie `User.from_token` cannot resolve raises "Refresh token
not valid"; otherwise a new access token is returned and a new refresh
cookie installed for the token's user. -/
def refresh_mutate (db : DB) (cookie : Option TokenStr) (now : Nat) : RefreshResult :=
  if cookie = none ∨ cookie = some .empty then
    .err [("token", "No refresh token supplied")]
  else
    match User_from_token db cookie now with
    | some user => .ok (make_access_jwt user.id now) (make_refresh_jwt user.id now)
    | none => .err [("token", "Refresh token not valid")]

/-! ### Signup (`SignupMutation.mutate`, `core/mutations.py` lines 16-23) -/

/-- The four fields of the signup mutation. -/
structure SignupInput where
  username : String
  email : String
  name : String
  password : String
deriving DecidableEq, Repr

/-- Django's message for a username / email that is already taken. -/
def alreadyExistsMsg : String := "A user with that value already exists"

/-- Django's password-too-short validator message. -/
def passwordTooShortMsg : String :=
  "This password is too short. It must contain at least 9 characters"

/-- Django's entirely-numeric password validator message. -/
def passwordNumericMsg : String := "This password is entirely numeric"

/-- Django's common-password validator message. -/
def passwordTooCommonMsg : String := "This password is too common"

/-- Modelled from the spec: the password validators that the missing
`core/forms.py` wires in (from `test_auth.py`: at least 9 characters, not
entirely numeric, not in the common-password list `common`). -/
def passwordValidationErrors (common : List String) (password : String) :
    List (String × String) :=
  (if password.length < 9 then [("password", passwordTooShortMsg)] else []) ++
  (if password.toList.all Char.isDigit then [("password", passwordNumericMsg)] else []) ++
  (if common.contains password then [("password", passwordTooCommonMsg)] else [])

/-- Modelled from the spec: validation of the missing `SignupForm`
(`core/forms.py`).  Field errors, in order: name at most 50 characters;
username at most 30 and at least 2 characters; username and email unique
across existing users (the `unique=True` columns of `0001_initial.py`);
then the password validators. -/
def signupFormErrors (db : DB) (common : List String) (inp : SignupInput) :
    List (String × String) :=
  (if inp.name.length > 50 then
    [("name", "Ensure this value has at most 50 characters")] else []) ++
  (if inp.username.length > 30 then
    [("username", "Ensure this value has at most 30 characters")] else []) ++
  (if inp.username.length < 2 then
    [("username", "Ensure this value has at least 2 characters")] else []) ++
  (if db.users.any (fun u => u.username = inp.username) then
    [("username", alreadyExistsMsg)] else []) ++
  (if db.users.any (fun u => u.email = inp.email) then
    [("email", alreadyExistsMsg)] else []) ++
  passwordValidationErrors common inp.password

/-- The observable outcome of a signup request: the GraphQL result (access
token or structured form errors), the database afterwards, the refresh
cookie installed by the request (if any), and the recipients of the emails
it sent. -/
structure SignupOutcome where
  result : Except (List (String × String)) TokenStr
  db : DB
  refreshCookie : Option TokenStr
  sentEmails : List String
deriving Repr

/-- Mutation `SignupMutation.mutate`: validate the form; on success save the new user
(hashed password, `last_login` stamped with the current time), send the
welcome email, install a refresh-token cookie and return an access token;
on failure raise the form's errors and change nothing.  `hashPw` is the
external password hasher, `newId` the id the database assigns. -/
def signup_mutate (hashPw : String → String) (common : List String) (db : DB)
    (inp : SignupInput) (now newId : Nat) : SignupOutcome :=
  let errs := signupFormErrors db common inp
  if errs = [] then
    let u : User :=
      { id := newId, username := inp.username, email := inp.email,
        name := inp.name, password := hashPw inp.password,
        last_login := some now, creation_time := now,
        password_reset_token := none, password_reset_token_expiry := 0 }
    { result := .ok (make_access_jwt newId now),
      db := { db with users := db.users ++ [u] },
      refreshCookie := some (make_refresh_jwt newId now),
      sentEmails := [inp.email] }
  else
    { result := .error errs, db := db, refreshCookie := none, sentEmails := [] }

/-- Insertion via `User.objects.create` under the `unique=True` constraints on `username`
and `email` declared in `0001_initial.py`: inserting a row whose username
or email collides with an existing row raises `IntegrityError` and leaves
the table unchanged. -/
def User_objects_create (db : DB) (u : User) : Except String DB :=
  if db.users.any (fun v => v.username = u.username) then
    .error "IntegrityError: UNIQUE constraint failed: users.username"
  else if db.users.any (fun v => v.email = u.email) then
    .error "IntegrityError: UNIQUE constraint failed: users.email"
  else
    .ok { db with users := db.users ++ [u] }

/-! ### Group membership mutations

These resolvers live in repository code that is not under `src/` (only
`tests/test_auth.py` exercises them), so they are modelled from the spec:
"a set of mutations that must enforce invariants (at least one admin per
group, no orphaned collections on account deletion, unique invitation per
user/group pair)". -/

/-- Look a group up by id. -/
def findGroup (db : DB) (gid : Nat) : Option Group :=
  db.groups.find? (fun g => g.id = gid)

/-- Whether a user with this id exists. -/
def userExists (db : DB) (uid : Nat) : Bool :=
  db.users.any (fun u => u.id = uid)

/-- Whether `uid` is an admin of `g` while no other user is. -/
def isOnlyAdmin (g : Group) (uid : Nat) : Bool :=
  g.admins.contains uid && (g.admins.filter (fun a => a ≠ uid)).isEmpty

/-- Replace the group with id `gid` by `f` applied to it. -/
def updateGroup (db : DB) (gid : Nat) (f : Group → Group) : DB :=
  { db with groups := db.groups.map (fun g => if g.id = gid then f g else g) }

/-- Drop `uid` from a group's member and admin sets. -/
def stripUser (uid : Nat) (g : Group) : Group :=
  { g with users := g.users.filter (fun a => a ≠ uid),
           admins := g.admins.filter (fun a => a ≠ uid) }

/-- Modelled from the spec: the `revokeGroupAdmin` mutation resolver (not
under `src/`).  The group must exist, the requester must be one of its
admins, the target user must exist and be an admin of the group, and must
not be its only admin; then the target is removed from the admin set. -/
def revokeGroupAdmin (db : DB) (requester gid uid : Nat) :
    Except (String × String) DB :=
  match findGroup db gid with
  | none => .error ("group", "Does not exist")
  | some g =>
    if requester ∈ g.admins then
      if userExists db uid then
        if uid ∈ g.admins then
          if isOnlyAdmin g uid then
            .error ("user", "That user is the only admin of this group")
          else
            .ok (updateGroup db gid (fun h =>
              { h with admins := h.admins.filter (fun a => a ≠ uid) }))
        else .error ("user", "Not an admin")
      else .error ("user", "Does not exist")
    else .error ("group", "Not an admin")

/-- Modelled from the spec: the `leaveGroup` mutation resolver (not under
`src/`).  The group must exist, the requester must be a member, and must
not be the group's only admin (else "there would be no admins"); then the
requester is removed from the member and admin sets. -/
def leaveGroup (db : DB) (requester gid : Nat) : Except (String × String) DB :=
  match findGroup db gid with
  | none => .error ("group", "Does not exist")
  | some g =>
    if requester ∈ g.users then
      if isOnlyAdmin g requester then
        .error ("group", "If you left the group there would be no admins")
      else
        .ok (updateGroup db gid (stripUser requester))
    else .error ("group", "Not in group")

/-- Modelled from the spec: the `removeUserFromGroup` mutation resolver (not
under `src/`).  The group must exist, the requester must be one of its
admins, the target user must exist and be a member; removal also strips
the target's admin status, and is refused when it would leave a group
that still has members with no admin. -/
def removeUserFromGroup (db : DB) (requester gid uid : Nat) :
    Except (String × String) DB :=
  match findGroup db gid with
  | none => .error ("group", "Does not exist")
  | some g =>
    if requester ∈ g.admins then
      if userExists db uid then
        if uid ∈ g.users then
          if isOnlyAdmin g uid && !(g.users.filter (fun a => a ≠ uid)).isEmpty then
            .error ("user", "That user is the only admin of this group")
          else
            .ok (updateGroup db gid (stripUser uid))
        else .error ("user", "Not in group")
      else .error ("user", "Does not exist")
    else .error ("group", "Not an admin")

/-- Modelled from the spec: the `inviteUserToGroup` mutation resolver (not
under `src/`).  The group must exist, the requester must be one of its
admins, the invited user must exist, must not already be a member, and
must not already have a pending invitation to this group; then exactly one
invitation for the pair is created. -/
def inviteUserToGroup (db : DB) (requester uid gid newId : Nat) :
    Except (String × String) DB :=
  match findGroup db gid with
  | none => .error ("group", "Does not exist")
  | some g =>
    if requester ∈ g.admins then
      if userExists db uid then
        if uid ∈ g.users then .error ("user", "Already a member")
        else if db.invitations.any (fun i => i.user = uid ∧ i.group = gid) then
          .error ("user", "Already invited")
        else
          .ok { db with invitations := db.invitations ++ [⟨newId, uid, gid⟩] }
      else .error ("user", "Does not exist")
    else .error ("group", "Not an admin")

/-! ### Account deletion -/

/-- Error raised by `deleteUser` when the requester still owns collections. -/
def ownsCollectionsMsg : String :=
  "You own collections and cannot delete your account while they exist"

/-- Error raised by `deleteUser` when the requester is the only admin of a
group. -/
def soleAdminMsg : String :=
  "You are the only admin of a group and cannot delete your account"

/-- Observable outcome of `deleteUser`: the GraphQL result and the database
afterwards (unchanged whenever an error is raised). -/
structure DeleteUserOutcome where
  result : Except (String × String) Unit
  db : DB
deriving Repr

/-- Modelled from the spec: the `deleteUser` mutation resolver (not under
`src/`), enforcing "no orphaned collections on account deletion" and "at
least one admin per group".  It fails if the requester owns any
collection, then if the requester is the only admin of some group;
otherwise it deletes the user, stripping them from every group's member
and admin sets and cascading their pending invitations. -/
def deleteUser (db : DB) (requester : Nat) : DeleteUserOutcome :=
  if db.collections.any (fun c => c.owner = requester) then
    ⟨.error ("user", ownsCollectionsMsg), db⟩
  else if db.groups.any (fun g => isOnlyAdmin g requester) then
    ⟨.error ("user", soleAdminMsg), db⟩
  else
    ⟨.ok (),
      { users := db.users.filter (fun u => u.id ≠ requester),
        groups := db.groups.map (stripUser requester),
        invitations := db.invitations.filter (fun i => i.user ≠ requester),
        collections := db.collections }⟩

/-! ### Password reset -/

/-- Error raised by `resetPassword` for a token that matches no live reset
token. -/
def resetTokenNotValidMsg : String := "Token is not valid"

/-- Error raised by `resetPassword` for a matching token past its expiry. -/
def resetTokenExpiredMsg : String := "Token has expired"

/-- Observable outcome of `resetPassword` for one user: the GraphQL result
and the user row afterwards (unchanged whenever an error is raised). -/
structure ResetOutcome where
  result : Except (String × String) Unit
  user : User
deriving Repr

/-- Modelled from the spec: the `resetPassword` mutation resolver (not under
`src/`) — the "password reset token lifecycle".  The supplied token must
equal the user's stored `password_reset_token` (an invalidated token is
`none` and matches nothing), the stored expiry must lie in the future, and
the new password must pass the password validators; on success the
password is replaced by its hash and the token is invalidated. -/
def resetPassword (hashPw : String → String) (common : List String)
    (u : User) (token password : String) (now : Nat) : ResetOutcome :=
  if u.password_reset_token = some token then
    if u.password_reset_token_expiry ≤ now then
      ⟨.error ("token", resetTokenExpiredMsg), u⟩
    else
      match passwordValidationErrors common password with
      | [] =>
        ⟨.ok (),
          { u with password := hashPw password,
                   password_reset_token := none,
                   password_reset_token_expiry := 0 }⟩
      | e :: _ => ⟨.error e, u⟩
  else ⟨.error ("token", resetTokenNotValidMsg), u⟩

/-! ### Query resolvers (`core/queries.py`) -/

/-- The groups a user belongs to (`self.groups.all()`), in database order. -/
def user_groups (db : DB) (uid : Nat) : List Group :=
  db.groups.filter (fun g => g.users.contains uid)

/-- The groups a user administers (`self.admin_groups.all()`), in database
order. -/
def user_admin_groups (db : DB) (uid : Nat) : List Group :=
  db.groups.filter (fun g => g.admins.contains uid)

/-- The user's pending invitations (`self.group_invitations.all()`). -/
def user_invitations (db : DB) (uid : Nat) : List GroupInvitation :=
  db.invitations.filter (fun i => i.user = uid)

/-- The collections shared with the user (`self.collections.all()`). -/
def user_collections (db : DB) (uid : Nat) : List Collection :=
  db.collections.filter (fun c => c.sharedWith.contains uid)

/-- The collections the user owns (`self.owned_collections.all()`). -/
def user_owned_collections (db : DB) (uid : Nat) : List Collection :=
  db.collections.filter (fun c => c.owner = uid)

/-- Insert `x` before the first element whose key is not smaller: together
with `sortByKey` this is a stable sort, as Python's `sorted` is. -/
def insertByKey {α : Type} (key : α → Nat) (x : α) : List α → List α
  | [] => [x]
  | y :: ys => if key x ≤ key y then x :: y :: ys else y :: insertByKey key x ys

/-- Stable insertion sort by a numeric key, modelling Python's stable
`sorted(xs, key=...)`. -/
def sortByKey {α : Type} (key : α → Nat) : List α → List α
  | [] => []
  | x :: xs => insertByKey key x (sortByKey key xs)

/-- A user object as served by `UserType`: the row plus the dynamically set
`restricted` attribute (`None` when the attribute was never set, as
`"restricted" in self.__dict__` tests). -/
structure QueryUser where
  user : User
  restrictedAttr : Option Bool
deriving Repr

/-- Truthiness of `"restricted" in self.__dict__ and self.restricted`. -/
def isRestricted (q : QueryUser) : Bool :=
  match q.restrictedAttr with
  | some b => b
  | none => false

/-- Resolver `UserType.resolve_groups`: the user's groups sorted by the stable key
`g not in admin_groups` (`False` before `True`), so administered groups
come first. -/
def resolve_groups (db : DB) (q : QueryUser) : List Group :=
  let admin_groups := user_admin_groups db q.user.id
  sortByKey (fun g => if admin_groups.contains g then 0 else 1)
    (user_groups db q.user.id)

/-- Resolver `UserType.resolve_last_login`: `None` in restricted mode. -/
def resolve_last_login (q : QueryUser) : Option Nat :=
  if isRestricted q then none else q.user.last_login

/-- Resolver `UserType.resolve_admin_groups`: `None` in restricted mode. -/
def resolve_admin_groups (db : DB) (q : QueryUser) : Option (List Group) :=
  if isRestricted q then none else some (user_admin_groups db q.user.id)

/-- Resolver `UserType.resolve_invitations`: `None` in restricted mode. -/
def resolve_invitations (db : DB) (q : QueryUser) : Option (List GroupInvitation) :=
  if isRestricted q then none else some (user_invitations db q.user.id)

/-- Resolver `UserType.resolve_collections`: only non-private collections in
restricted mode. -/
def resolve_collections (db : DB) (q : QueryUser) : List Collection :=
  if isRestricted q then
    (user_collections db q.user.id).filter (fun c => c.isPrivate = false)
  else user_collections db q.user.id

/-- Resolver `UserType.resolve_owned_collections`: only non-private collections in
restricted mode. -/
def resolve_owned_collections (db : DB) (q : QueryUser) : List Collection :=
  if isRestricted q then
    (user_owned_collections db q.user.id).filter (fun c => c.isPrivate = false)
  else user_owned_collections db q.user.id

/-- Resolver `UserType.resolve_all_collections`: owned then shared collections, each
part filtered to non-private ones in restricted mode. -/
def resolve_all_collections (db : DB) (q : QueryUser) : List Collection :=
  if isRestricted q then
    (user_owned_collections db q.user.id).filter (fun c => c.isPrivate = false) ++
      (user_collections db q.user.id).filter (fun c => c.isPrivate = false)
  else user_owned_collections db q.user.id ++ user_collections db q.user.id

/-! ### Invariants -/

/-- Invariant "at least one admin per group": every group that has members has an
admin. -/
def adminInvariant (db : DB) : Prop :=
  ∀ g ∈ db.groups, g.users ≠ [] → g.admins ≠ []

/-- Invariant "no orphan collections": every collection's owner exists. -/
def ownerInvariant (db : DB) : Prop :=
  ∀ c ∈ db.collections, ∃ u ∈ db.users, u.id = c.owner

/-- Invariant "unique invitation per user/group pair": no two pending invitations name
the same user and group. -/
def invitationInvariant (db : DB) : Prop :=
  db.invitations.Pairwise (fun a b => ¬(a.user = b.user ∧ a.group = b.group))

/-! ### Concrete fixtures

Small concrete rows and databases, mirroring the fixtures of
`tests/test_auth.py`, used to evaluate the theorems below on closed
inputs. -/

/-- Fixture: the user "jack" (id 1), admin of the Shephard Lab. -/
def jack : User :=
  ⟨1, "jack", "jack@gmail.com", "Jack Shephard", "livetogetha", none, 0, none, 0⟩

/-- Fixture: the user "boone" (id 2), member of the Shephard Lab. -/
def boone : User :=
  ⟨2, "boone", "boone@gmail.com", "Boone Carlyle", "pw-boone", some 99, 0, none, 0⟩

/-- Fixture: the user "shannon" (id 3), member of the Shephard Lab. -/
def shannon : User :=
  ⟨3, "shannon", "shannon@gmail.com", "Shannon Rutherford", "pw-shannon", none, 0, none, 0⟩

/-- Fixture: the Shephard Lab group (id 1) with members 1, 2, 3 and sole
admin 1. -/
def shephardLab : Group :=
  ⟨1, "Shephard Lab", "", [1, 2, 3], [1]⟩

/-- Fixture: a private collection (id 1) owned by jack and shared with
boone. -/
def experiment1 : Collection :=
  ⟨1, 1, [2], true⟩

/-- Fixture: a database with the three users, the Shephard Lab, a pending
invitation of shannon (id 3) to the lab, and jack's collection. -/
def sampleDB : DB :=
  ⟨[jack, boone, shannon], [shephardLab], [⟨1, 3, 1⟩], [experiment1]⟩

/-- Fixture: like `sampleDB` but with no collections, so jack owns
nothing. -/
def sampleDBNoCollections : DB :=
  ⟨[jack, boone, shannon], [shephardLab], [⟨1, 3, 1⟩], []⟩

/-- Fixture: like `sampleDBNoCollections` but with boone (id 2) also an
admin of the Shephard Lab. -/
def sampleDBTwoAdmins : DB :=
  ⟨[jack, boone, shannon], [⟨1, "Shephard Lab", "", [1, 2, 3], [1, 2]⟩], [⟨1, 3, 1⟩], []⟩

/-- Fixture: a user with a live password-reset token "123456" expiring at
time 100. -/
def kate : User :=
  ⟨4, "kate", "kate@gmail.com", "Kate Austen", "oldhash", none, 0, some "123456", 100⟩

/-- Fixture: the user "juliette" (id 5), not a member of any group. -/
def juliette : User :=
  ⟨5, "juliette", "juliette@gmail.com", "Juliette Burke", "pw-juliette", none, 0, none, 0⟩

/-- Fixture: `sampleDBNoCollections` plus juliette, who is not in the
Shephard Lab and has no pending invitation. -/
def sampleDBInvite : DB :=
  ⟨[jack, boone, shannon, juliette], [shephardLab], [⟨1, 3, 1⟩], []⟩

/-! ### Helper lemmas -/

/-- List lookup `find?` returns the designated element when it is the only one the
predicate accepts. -/
theorem find_eq_of_mem {α : Type} (p : α → Bool) (l : List α) (x : α)
    (hx : x ∈ l) (hpx : p x = true)
    (honly : ∀ a ∈ l, p a = true → a = x) :
    l.find? p = some x := by
  induction l with
  | nil => cases hx
  | cons y t ih =>
    by_cases hy : p y = true
    · have hyx : y = x := honly y (List.mem_cons_self _ _) hy
      subst hyx
      exact List.find?_cons_of_pos _ hy
    · have hxt : x ∈ t := by
        rcases List.mem_cons.mp hx with h | h
        · exact absurd (h ▸ hpx) hy
        · exact h
      rw [List.find?_cons_of_neg _ (by simpa using hy)]
      exact ih hxt (fun a ha hpa => honly a (List.mem_cons_of_mem _ ha) hpa)

/-- Claim C5: the login mutation succeeds (returning an access token,
installing a refresh cookie and stamping that user's `last_login` with the
current time) exactly when a user with the given username exists and the
supplied password checks against that user's stored hash; in every other
case it raises "Invalid credentials", sets no cookie and leaves the
database — in particular `last_login` — unchanged. -/
theorem login_correctness (cp : String → String → Bool) (db : DB)
    (username password : String) (now : Nat)
    (huniq : db.users.Pairwise (fun a b => a.username ≠ b.username)) :
    ((∃ t, (login_mutate cp db username password now).result = .ok t) ↔
      ∃ u ∈ db.users, u.username = username ∧ cp password u.password = true) ∧
    (∀ u ∈ db.users, u.username = username → cp password u.password = true →
      login_mutate cp db username password now =
        { result := .ok (make_access_jwt u.id now),
          db := { db with users := db.users.map (fun v =>
            if v.id = u.id then { v with last_login := some now } else v) },
          refreshCookie := some (make_refresh_jwt u.id now) }) ∧
    ((¬ ∃ u ∈ db.users, u.username = username ∧ cp password u.password = true) →
      login_mutate cp db username password now =
        { result := .error [("username", "Invalid credentials")],
          db := db, refreshCookie := none }) := by
  have hsymm : Symmetric (fun a b : User => a.username ≠ b.username) :=
    fun a b h e => h e.symm
  have hb : ∀ u ∈ db.users, u.username = username → cp password u.password = true →
      login_mutate cp db username password now =
        { result := .ok (make_access_jwt u.id now),
          db := { db with users := db.users.map (fun v =>
            if v.id = u.id then { v with last_login := some now } else v) },
          refreshCookie := some (make_refresh_jwt u.id now) } := by
    intro u hu hun hcp
    have hfind : db.users.find? (fun v => v.username = username) = some u := by
      apply find_eq_of_mem _ _ u hu (by simpa using hun)
      intro a ha hpa
      have han : a.username = username := by simpa using hpa
      by_contra hne
      exact (huniq.forall hsymm ha hu hne) (han.trans hun.symm)
    unfold login_mutate
    rw [hfind]
    simp [hcp]
  refine ⟨⟨?_, ?_⟩, hb, ?_⟩
  · rintro ⟨t, ht⟩
    unfold login_mutate at ht
    cases hfind : db.users.find? (fun v => v.username = username) with
    | none => rw [hfind] at ht; simp at ht
    | some v =>
      rw [hfind] at ht
      by_cases hcp : cp password v.password = true
      · exact ⟨v, List.mem_of_find?_eq_some hfind,
          by simpa using List.find?_some hfind, hcp⟩
      · simp [hcp] at ht
  · rintro ⟨u, hu, hun, hcp⟩
    exact ⟨make_access_jwt u.id now, by rw [hb u hu hun hcp]⟩
  · intro hne
    unfold login_mutate
    cases hfind : db.users.find? (fun v => v.username = username) with
    | none => rfl
    | some v =>
      by_cases hcp : cp password v.password = true
      · exact absurd ⟨v, List.mem_of_find?_eq_some hfind,
          by simpa using List.find?_some hfind, hcp⟩ hne
      · simp [hcp]

/-- Witness for C5: a successful login at a concrete one-user database. -/
theorem login_correctness_witness :
    (({ users := [⟨1, "jack", "jack@gmail.com", "Jack", "livetogetha", none, 0, none, 0⟩],
        groups := [], invitations := [], collections := [] } : DB)).users.Pairwise
        (fun a b => a.username ≠ b.username) ∧
    login_mutate (fun p h => p == h)
      { users := [⟨1, "jack", "jack@gmail.com", "Jack", "livetogetha", none, 0, none, 0⟩],
        groups := [], invitations := [], collections := [] } "jack" "livetogetha" 5 =
      { result := .ok (make_access_jwt 1 5),
        db := { users := [⟨1, "jack", "jack@gmail.com", "Jack", "livetogetha", some 5, 0, none, 0⟩],
                groups := [], invitations := [], collections := [] },
        refreshCookie := some (make_refresh_jwt 1 5) } := by
  refine ⟨by simp, ?_⟩
  have h := (login_correctness (fun p h => p == h)
    { users := [⟨1, "jack", "jack@gmail.com", "Jack", "livetogetha", none, 0, none, 0⟩],
      groups := [], invitations := [], collections := [] }
    "jack" "livetogetha" 5 (by simp)).2.1
    ⟨1, "jack", "jack@gmail.com", "Jack", "livetogetha", none, 0, none, 0⟩
    (by simp) rfl (by decide)
  rw [h]
  rfl

/-- Claim C6: token refresh raises "No refresh token supplied" when the
request carries no refresh-token cookie, raises "Refresh token not valid"
when the carried token cannot be resolved to a user (malformed, forged,
expired, or unknown subject), succeeds with a fresh access token and a
fresh refresh cookie for the token's user otherwise, and these three
outcomes are exhaustive and mutually exclusive. -/
theorem refresh_trichotomy (db : DB) (cookie : Option TokenStr) (now : Nat) :
    (cookie = none →
      refresh_mutate db cookie now = .err [("token", "No refresh token supplied")]) ∧
    (∀ t, cookie = some t → t ≠ .empty → User_from_token db cookie now = none →
      refresh_mutate db cookie now = .err [("token", "Refresh token not valid")]) ∧
    (∀ t u, cookie = some t → User_from_token db cookie now = some u →
      refresh_mutate db cookie now =
        .ok (make_access_jwt u.id now) (make_refresh_jwt u.id now)) ∧
    (refresh_mutate db cookie now = .err [("token", "No refresh token supplied")] ∨
     refresh_mutate db cookie now = .err [("token", "Refresh token not valid")] ∨
     ∃ a r, refresh_mutate db cookie now = .ok a r) ∧
    ¬(refresh_mutate db cookie now = .err [("token", "No refresh token supplied")] ∧
      refresh_mutate db cookie now = .err [("token", "Refresh token not valid")]) ∧
    ¬(refresh_mutate db cookie now = .err [("token", "No refresh token supplied")] ∧
      ∃ a r, refresh_mutate db cookie now = .ok a r) ∧
    ¬(refresh_mutate db cookie now = .err [("token", "Refresh token not valid")] ∧
      ∃ a r, refresh_mutate db cookie now = .ok a r) := by
  refine ⟨?_, ?_, ?_, ?_, ?_, ?_, ?_⟩
  · intro hc
    simp [refresh_mutate, hc]
  · intro t hc hne hft
    have hfalsy : ¬(cookie = none ∨ cookie = some TokenStr.empty) := by
      rintro (h | h)
      · rw [hc] at h; cases h
      · rw [hc] at h
        exact hne (by injection h)
    simp [refresh_mutate, hfalsy, hft]
  · intro t u hc hft
    have hfalsy : ¬(cookie = none ∨ cookie = some TokenStr.empty) := by
      rintro (h | h)
      · rw [h] at hft; simp [User_from_token] at hft
      · rw [h] at hft; simp [User_from_token] at hft
    simp [refresh_mutate, hfalsy, hft]
  · unfold refresh_mutate
    by_cases hfalsy : cookie = none ∨ cookie = some TokenStr.empty
    · left; simp [hfalsy]
    · cases hft : User_from_token db cookie now with
      | none => right; left; simp [hfalsy, hft]
      | some u =>
        right; right
        exact ⟨make_access_jwt u.id now, make_refresh_jwt u.id now,
          by simp [hfalsy, hft]⟩
  · rintro ⟨h1, h2⟩
    rw [h1] at h2
    simp at h2
  · rintro ⟨h1, _, _, h2⟩
    rw [h1] at h2
    cases h2
  · rintro ⟨h1, _, _, h2⟩
    rw [h1] at h2
    cases h2

/-- Witness for C6: at a concrete database and a garbled cookie the refresh
mutation raises "Refresh token not valid". -/
theorem refresh_trichotomy_witness :
    (some (TokenStr.garbled "sadafasdf") = some (TokenStr.garbled "sadafasdf") ∧
      TokenStr.garbled "sadafasdf" ≠ TokenStr.empty ∧
      User_from_token { users := [], groups := [], invitations := [], collections := [] }
        (some (TokenStr.garbled "sadafasdf")) 7 = none) ∧
    refresh_mutate { users := [], groups := [], invitations := [], collections := [] }
      (some (TokenStr.garbled "sadafasdf")) 7 =
      .err [("token", "Refresh token not valid")] := by
  refine ⟨⟨rfl, by decide, rfl⟩, ?_⟩
  exact (refresh_trichotomy
    { users := [], groups := [], invitations := [], collections := [] }
    (some (TokenStr.garbled "sadafasdf")) 7).2.1
    (TokenStr.garbled "sadafasdf") rfl (by decide) rfl

/-- Inserting an element whose key is at most every key in the list puts it
at the front. -/
theorem insertByKey_all_le {α : Type} (key : α → Nat) (x : α) (l : List α)
    (h : ∀ y ∈ l, key x ≤ key y) : insertByKey key x l = x :: l := by
  cases l with
  | nil => rfl
  | cons y ys =>
    rw [insertByKey, if_pos (h y (List.mem_cons_self _ _))]

/-- Inserting an element whose key exceeds every key of the first part
skips past that part. -/
theorem insertByKey_append_gt {α : Type} (key : α → Nat) (x : α) (A B : List α)
    (h : ∀ y ∈ A, ¬ key x ≤ key y) :
    insertByKey key x (A ++ B) = A ++ insertByKey key x B := by
  induction A with
  | nil => rfl
  | cons a as ih =>
    rw [List.cons_append, insertByKey, if_neg (h a (List.mem_cons_self _ _)),
      ih (fun y hy => h y (List.mem_cons_of_mem _ hy)), List.cons_append]

/-- A stable sort by the two-valued key `if p x then 0 else 1` is exactly
the elements satisfying `p`, in order, followed by the rest, in order. -/
theorem sortByKey_binary {α : Type} (p : α → Bool) (l : List α) :
    sortByKey (fun x => if p x then 0 else 1) l =
      l.filter p ++ l.filter (fun x => !(p x)) := by
  induction l with
  | nil => rfl
  | cons x xs ih =>
    rw [sortByKey, ih]
    by_cases hp : p x = true
    · rw [insertByKey_all_le _ _ _ (fun y _ => by simp [hp])]
      simp [List.filter_cons, hp]
    · have hx : (if p x then 0 else 1) = 1 := by simp [hp]
      rw [insertByKey_append_gt _ _ _ _ (fun y hy => by
          have := List.of_mem_filter hy
          simp [hx, this]),
        insertByKey_all_le _ _ _ (fun y hy => by
          have := List.of_mem_filter hy
          simp at this
          simp [hx, this])]
      simp [List.filter_cons, hp]

/-- Claim C9: `resolve_groups` returns the user's groups with every
administered group before every non-administered one, the database order
preserved within each part (the Boolean sort key is stable); in
particular the result is a permutation of the user's groups. -/
theorem resolve_groups_admin_first (db : DB) (q : QueryUser) :
    resolve_groups db q =
      (user_groups db q.user.id).filter
        (fun g => (user_admin_groups db q.user.id).contains g) ++
      (user_groups db q.user.id).filter
        (fun g => !((user_admin_groups db q.user.id).contains g)) ∧
    (resolve_groups db q).Perm (user_groups db q.user.id) := by
  have h := sortByKey_binary
    (fun g => (user_admin_groups db q.user.id).contains g)
    (user_groups db q.user.id)
  refine ⟨h, ?_⟩
  rw [show resolve_groups db q = sortByKey
    (fun g => if (user_admin_groups db q.user.id).contains g then 0 else 1)
    (user_groups db q.user.id) from rfl, h]
  exact List.filter_append_perm _ _

/-- Claim C10: in restricted mode (the `restricted` attribute present and
true) the user resolvers reveal no private data — `last_login`,
`admin_groups` and `invitations` resolve to `None` and the three
collection resolvers return only collections whose `private` flag is
false; out of restricted mode the unfiltered values are returned. -/
theorem restricted_hides_private_data (db : DB) (q : QueryUser) :
    (q.restrictedAttr = some true →
      resolve_last_login q = none ∧
      resolve_admin_groups db q = none ∧
      resolve_invitations db q = none ∧
      (∀ c ∈ resolve_collections db q, c.isPrivate = false) ∧
      (∀ c ∈ resolve_owned_collections db q, c.isPrivate = false) ∧
      (∀ c ∈ resolve_all_collections db q, c.isPrivate = false)) ∧
    (q.restrictedAttr ≠ some true →
      resolve_last_login q = q.user.last_login ∧
      resolve_admin_groups db q = some (user_admin_groups db q.user.id) ∧
      resolve_invitations db q = some (user_invitations db q.user.id) ∧
      resolve_collections db q = user_collections db q.user.id ∧
      resolve_owned_collections db q = user_owned_collections db q.user.id ∧
      resolve_all_collections db q =
        user_owned_collections db q.user.id ++ user_collections db q.user.id) := by
  have hiff : isRestricted q = true ↔ q.restrictedAttr = some true := by
    unfold isRestricted
    cases h : q.restrictedAttr with
    | none => simp
    | some b => cases b <;> simp
  constructor
  · intro hr
    have hb : isRestricted q = true := hiff.mpr hr
    refine ⟨by simp [resolve_last_login, hb],
      by simp [resolve_admin_groups, hb],
      by simp [resolve_invitations, hb], ?_, ?_, ?_⟩
    · intro c hc
      simp only [resolve_collections, hb, if_true] at hc
      simpa using List.of_mem_filter hc
    · intro c hc
      simp only [resolve_owned_collections, hb, if_true] at hc
      simpa using List.of_mem_filter hc
    · intro c hc
      simp only [resolve_all_collections, hb, if_true] at hc
      rcases List.mem_append.mp hc with h | h
      · simpa using List.of_mem_filter h
      · simpa using List.of_mem_filter h
  · intro hr
    have hb : isRestricted q = false := by
      cases h : isRestricted q
      · rfl
      · exact absurd (hiff.mp h) hr
    exact ⟨by simp [resolve_last_login, hb],
      by simp [resolve_admin_groups, hb],
      by simp [resolve_invitations, hb],
      by simp [resolve_collections, hb],
      by simp [resolve_owned_collections, hb],
      by simp [resolve_all_collections, hb]⟩

/-- Witness for C10: both modes at concrete inputs — a restricted view of a
user hides `last_login`, an unrestricted view of the same user shows
it. -/
theorem restricted_hides_private_data_witness :
    ((some true : Option Bool) = some true ∧
      resolve_last_login
        ⟨⟨2, "boone", "boone@gmail.com", "Boone", "pw", some 99, 0, none, 0⟩,
          some true⟩ = none) ∧
    ((none : Option Bool) ≠ some true ∧
      resolve_last_login
        ⟨⟨2, "boone", "boone@gmail.com", "Boone", "pw", some 99, 0, none, 0⟩,
          none⟩ = some 99) := by
  constructor
  · refine ⟨rfl, ?_⟩
    exact ((restricted_hides_private_data
      { users := [], groups := [], invitations := [], collections := [] }
      ⟨⟨2, "boone", "boone@gmail.com", "Boone", "pw", some 99, 0, none, 0⟩,
        some true⟩).1 rfl).1
  · refine ⟨by simp, ?_⟩
    exact ((restricted_hides_private_data
      { users := [], groups := [], invitations := [], collections := [] }
      ⟨⟨2, "boone", "boone@gmail.com", "Boone", "pw", some 99, 0, none, 0⟩,
        none⟩).2 (by simp)).1

/-- A duplicate username puts the "already exists" error among the signup
form's errors. -/
theorem signupFormErrors_username_taken (db : DB) (common : List String)
    (inp : SignupInput)
    (h : db.users.any (fun u => u.username = inp.username) = true) :
    ("username", alreadyExistsMsg) ∈ signupFormErrors db common inp := by
  simp [signupFormErrors, h]

/-- A duplicate email puts the "already exists" error among the signup
form's errors. -/
theorem signupFormErrors_email_taken (db : DB) (common : List String)
    (inp : SignupInput)
    (h : db.users.any (fun u => u.email = inp.email) = true) :
    ("email", alreadyExistsMsg) ∈ signupFormErrors db common inp := by
  simp [signupFormErrors, h]

/-- Claim C4: usernames and emails are unique across users — inserting a
user whose username or email equals an existing user's raises an integrity
error, and the signup mutation rejects a duplicate username or email with
an "already exists" validation error, leaving the user table unchanged and
setting no refresh-token cookie. -/
theorem signup_uniqueness (hashPw : String → String) (common : List String)
    (db : DB) (u : User) (inp : SignupInput) (now newId : Nat) :
    ((∃ v ∈ db.users, v.username = u.username ∨ v.email = u.email) →
      ∃ e, User_objects_create db u = .error e) ∧
    ((∃ v ∈ db.users, v.username = inp.username ∨ v.email = inp.email) →
      ∃ errs, (signup_mutate hashPw common db inp now newId).result = .error errs ∧
        (("username", alreadyExistsMsg) ∈ errs ∨ ("email", alreadyExistsMsg) ∈ errs) ∧
        (signup_mutate hashPw common db inp now newId).db = db ∧
        (signup_mutate hashPw common db inp now newId).refreshCookie = none ∧
        (signup_mutate hashPw common db inp now newId).sentEmails = []) := by
  constructor
  · rintro ⟨v, hv, hdup⟩
    unfold User_objects_create
    by_cases hu : db.users.any (fun w => w.username = u.username) = true
    · exact ⟨"IntegrityError: UNIQUE constraint failed: users.username", by simp [hu]⟩
    · have he : db.users.any (fun w => w.email = u.email) = true := by
        rcases hdup with h | h
        · exact absurd (List.any_eq_true.mpr ⟨v, hv, by simp [h]⟩) hu
        · exact List.any_eq_true.mpr ⟨v, hv, by simp [h]⟩
      exact ⟨"IntegrityError: UNIQUE constraint failed: users.email", by simp [hu, he]⟩
  · rintro ⟨v, hv, hdup⟩
    have hmem : ("username", alreadyExistsMsg) ∈ signupFormErrors db common inp ∨
        ("email", alreadyExistsMsg) ∈ signupFormErrors db common inp := by
      rcases hdup with h | h
      · exact Or.inl (signupFormErrors_username_taken db common inp
          (List.any_eq_true.mpr ⟨v, hv, by simp [h]⟩))
      · exact Or.inr (signupFormErrors_email_taken db common inp
          (List.any_eq_true.mpr ⟨v, hv, by simp [h]⟩))
    have hne : signupFormErrors db common inp ≠ [] := by
      rcases hmem with h | h <;> exact List.ne_nil_of_mem h
    refine ⟨signupFormErrors db common inp, ?_, hmem, ?_, ?_, ?_⟩ <;>
      simp [signup_mutate, hne]

/-- Witness for C4: signing up with the already-taken username "jack" is
rejected with "already exists" and nothing changes. -/
theorem signup_uniqueness_witness :
    (∃ v ∈ sampleDB.users, v.username = "jack" ∨ v.email = "kate@gmail.com") ∧
    ∃ errs,
      (signup_mutate (fun p => p) [] sampleDB
        ⟨"jack", "kate@gmail.com", "Kate Austen", "sw0rdfish123"⟩ 5 9).result = .error errs ∧
      (("username", alreadyExistsMsg) ∈ errs ∨ ("email", alreadyExistsMsg) ∈ errs) ∧
      (signup_mutate (fun p => p) [] sampleDB
        ⟨"jack", "kate@gmail.com", "Kate Austen", "sw0rdfish123"⟩ 5 9).db = sampleDB ∧
      (signup_mutate (fun p => p) [] sampleDB
        ⟨"jack", "kate@gmail.com", "Kate Austen", "sw0rdfish123"⟩ 5 9).refreshCookie = none ∧
      (signup_mutate (fun p => p) [] sampleDB
        ⟨"jack", "kate@gmail.com", "Kate Austen", "sw0rdfish123"⟩ 5 9).sentEmails = [] := by
  refine ⟨⟨jack, by simp [sampleDB], Or.inl rfl⟩, ?_⟩
  exact (signup_uniqueness (fun p => p) [] sampleDB jack
    ⟨"jack", "kate@gmail.com", "Kate Austen", "sw0rdfish123"⟩ 5 9).2
    ⟨jack, by simp [sampleDB], Or.inl rfl⟩

/-- Claim C7: whenever the signup input fails validation (name over 50
characters, username over 30 or under 2 characters, duplicate username or
email, password too short, entirely numeric, or too common), the signup
mutation raises the structured form errors and makes no state change: no
user is created, no email is sent, no refresh-token cookie is set. -/
theorem signup_validation_failure (hashPw : String → String)
    (common : List String) (db : DB) (inp : SignupInput) (now newId : Nat)
    (h : 50 < inp.name.length ∨ 30 < inp.username.length ∨
      inp.username.length < 2 ∨
      (∃ v ∈ db.users, v.username = inp.username) ∨
      (∃ v ∈ db.users, v.email = inp.email) ∨
      inp.password.length < 9 ∨
      inp.password.toList.all Char.isDigit = true ∨
      inp.password ∈ common) :
    (signup_mutate hashPw common db inp now newId).result =
      .error (signupFormErrors db common inp) ∧
    signupFormErrors db common inp ≠ [] ∧
    (signup_mutate hashPw common db inp now newId).db = db ∧
    (signup_mutate hashPw common db inp now newId).refreshCookie = none ∧
    (signup_mutate hashPw common db inp now newId).sentEmails = [] := by
  have hne : signupFormErrors db common inp ≠ [] := by
    rcases h with h | h | h | h | h | h | h | h
    · exact List.ne_nil_of_mem (a := ("name", "Ensure this value has at most 50 characters"))
        (by simp [signupFormErrors, h])
    · exact List.ne_nil_of_mem (a := ("username", "Ensure this value has at most 30 characters"))
        (by simp [signupFormErrors, h])
    · exact List.ne_nil_of_mem (a := ("username", "Ensure this value has at least 2 characters"))
        (by simp [signupFormErrors, h])
    · obtain ⟨v, hv, hvn⟩ := h
      exact List.ne_nil_of_mem
        (signupFormErrors_username_taken db common inp
          (List.any_eq_true.mpr ⟨v, hv, by simp [hvn]⟩))
    · obtain ⟨v, hv, hvn⟩ := h
      exact List.ne_nil_of_mem
        (signupFormErrors_email_taken db common inp
          (List.any_eq_true.mpr ⟨v, hv, by simp [hvn]⟩))
    · exact List.ne_nil_of_mem (a := ("password", passwordTooShortMsg))
        (by simp [signupFormErrors, passwordValidationErrors, h])
    · have h' : ∀ x ∈ inp.password.data, x.isDigit = true :=
        fun x hx => List.all_eq_true.mp h x hx
      refine List.ne_nil_of_mem (a := ("password", passwordNumericMsg)) ?_
      simp [signupFormErrors, passwordValidationErrors]
      exact Or.inr (Or.inl h')
    · refine List.ne_nil_of_mem (a := ("password", passwordTooCommonMsg)) ?_
      simp [signupFormErrors, passwordValidationErrors]
      exact Or.inr (Or.inr h)
  refine ⟨?_, hne, ?_, ?_, ?_⟩ <;> simp [signup_mutate, hne]

/-- Witness for C7: a too-short, too-common password ("sw0rd123" is 8
characters) is rejected at a concrete database with nothing changed. -/
theorem signup_validation_failure_witness :
    (50 < ("Kate Austen" : String).length ∨ 30 < ("kate" : String).length ∨
      ("kate" : String).length < 2 ∨
      (∃ v ∈ sampleDB.users, v.username = "kate") ∨
      (∃ v ∈ sampleDB.users, v.email = "kate@gmail.com") ∨
      ("sw0rd123" : String).length < 9 ∨
      ("sw0rd123" : String).toList.all Char.isDigit = true ∨
      ("sw0rd123" : String) ∈ ["password123"]) ∧
    (signup_mutate (fun p => p) ["password123"] sampleDB
      ⟨"kate", "kate@gmail.com", "Kate Austen", "sw0rd123"⟩ 5 9).result =
      .error (signupFormErrors sampleDB ["password123"]
        ⟨"kate", "kate@gmail.com", "Kate Austen", "sw0rd123"⟩) ∧
    (signup_mutate (fun p => p) ["password123"] sampleDB
      ⟨"kate", "kate@gmail.com", "Kate Austen", "sw0rd123"⟩ 5 9).db = sampleDB ∧
    (signup_mutate (fun p => p) ["password123"] sampleDB
      ⟨"kate", "kate@gmail.com", "Kate Austen", "sw0rd123"⟩ 5 9).refreshCookie = none ∧
    (signup_mutate (fun p => p) ["password123"] sampleDB
      ⟨"kate", "kate@gmail.com", "Kate Austen", "sw0rd123"⟩ 5 9).sentEmails = [] := by
  have h := signup_validation_failure (fun p => p) ["password123"] sampleDB
    ⟨"kate", "kate@gmail.com", "Kate Austen", "sw0rd123"⟩ 5 9
    (Or.inr (Or.inr (Or.inr (Or.inr (Or.inr (Or.inl (by decide)))))))
  exact ⟨Or.inr (Or.inr (Or.inr (Or.inr (Or.inr (Or.inl (by decide)))))),
    h.1, h.2.2.1, h.2.2.2.1, h.2.2.2.2⟩

/-- Claim C2: account deletion fails with a validation error mentioning
"collection", deleting nothing, whenever the requester owns a collection;
when the requester owns no collection and is the only admin of no group it
succeeds and removes exactly that user; hence no collection is ever left
without its owner. -/
theorem deleteUser_correctness (db : DB) (r : Nat) :
    ((∃ c ∈ db.collections, c.owner = r) →
      (deleteUser db r).result = .error ("user", ownsCollectionsMsg) ∧
      (∃ pre post, ownsCollectionsMsg = pre ++ "collection" ++ post) ∧
      (deleteUser db r).db = db) ∧
    ((¬ ∃ c ∈ db.collections, c.owner = r) →
      (¬ ∃ g ∈ db.groups, isOnlyAdmin g r = true) →
      (deleteUser db r).result = .ok () ∧
      (deleteUser db r).db.users = db.users.filter (fun u => u.id ≠ r)) ∧
    (ownerInvariant db → ownerInvariant (deleteUser db r).db) := by
  refine ⟨?_, ?_, ?_⟩
  · rintro ⟨c, hc, hco⟩
    have hany : db.collections.any (fun c => c.owner = r) = true :=
      List.any_eq_true.mpr ⟨c, hc, by simp [hco]⟩
    exact ⟨by simp [deleteUser, hany], ⟨"You own ",
      "s and cannot delete your account while they exist", rfl⟩,
      by simp [deleteUser, hany]⟩
  · intro h1 h2
    have hany1 : db.collections.any (fun c => c.owner = r) = false := by
      rw [← Bool.not_eq_true]
      intro hx
      obtain ⟨c, hc, hco⟩ := List.any_eq_true.mp hx
      exact h1 ⟨c, hc, by simpa using hco⟩
    have hany2 : db.groups.any (fun g => isOnlyAdmin g r) = false := by
      rw [← Bool.not_eq_true]
      intro hx
      obtain ⟨g, hg, hga⟩ := List.any_eq_true.mp hx
      exact h2 ⟨g, hg, hga⟩
    exact ⟨by simp [deleteUser, hany1, hany2], by simp [deleteUser, hany1, hany2]⟩
  · intro hinv
    by_cases hany1 : db.collections.any (fun c => c.owner = r) = true
    · simpa [deleteUser, hany1] using hinv
    · by_cases hany2 : db.groups.any (fun g => isOnlyAdmin g r) = true
      · simpa [deleteUser, hany1, hany2] using hinv
      · intro c hc
        have hc' : c ∈ db.collections := by
          simpa [deleteUser, hany1, hany2] using hc
        obtain ⟨u, hu, hid⟩ := hinv c hc'
        have hor : c.owner ≠ r := by
          intro e
          exact hany1 (List.any_eq_true.mpr ⟨c, hc', by simp [e]⟩)
        refine ⟨u, ?_, hid⟩
        simp only [deleteUser, hany1, hany2]
        simp only [Bool.false_eq_true, if_false, if_neg]
        exact List.mem_filter.mpr ⟨hu, by simp [hid, hor]⟩

/-- Witness for C2: jack owns a collection in `sampleDB`, so deletion fails
there; in `sampleDBTwoAdmins` jack owns nothing and is not a sole admin,
so deletion succeeds and removes exactly jack. -/
theorem deleteUser_correctness_witness :
    (∃ c ∈ sampleDB.collections, c.owner = 1) ∧
    (deleteUser sampleDB 1).result = .error ("user", ownsCollectionsMsg) ∧
    (deleteUser sampleDB 1).db = sampleDB ∧
    (¬ ∃ c ∈ sampleDBTwoAdmins.collections, c.owner = 1) ∧
    (¬ ∃ g ∈ sampleDBTwoAdmins.groups, isOnlyAdmin g 1 = true) ∧
    (deleteUser sampleDBTwoAdmins 1).result = .ok () ∧
    (deleteUser sampleDBTwoAdmins 1).db.users =
      sampleDBTwoAdmins.users.filter (fun u => u.id ≠ 1) := by
  have hex : ∃ c ∈ sampleDB.collections, c.owner = 1 :=
    ⟨experiment1, by simp [sampleDB], rfl⟩
  have hno1 : ¬ ∃ c ∈ sampleDBTwoAdmins.collections, c.owner = 1 := by
    simp [sampleDBTwoAdmins]
  have hno2 : ¬ ∃ g ∈ sampleDBTwoAdmins.groups, isOnlyAdmin g 1 = true := by
    simp [sampleDBTwoAdmins, isOnlyAdmin]
  have h1 := (deleteUser_correctness sampleDB 1).1 hex
  have h2 := (deleteUser_correctness sampleDBTwoAdmins 1).2.1 hno1 hno2
  exact ⟨hex, h1.1, h1.2.2, hno1, hno2, h2.1, h2.2⟩

/-- Claim C8: the password-reset token is single-use and time-limited —
a reset succeeds only when the supplied token equals the stored one and
the stored expiry lies in the future; a success installs the new password
and invalidates the token, so replaying the same token always fails with
the "not valid" error; a matching token past its expiry always fails with
the "expired" error, leaving the password unchanged. -/
theorem resetPassword_lifecycle (hashPw : String → String) (common : List String)
    (u : User) (token password : String) (now : Nat) :
    ((resetPassword hashPw common u token password now).result = .ok () →
      u.password_reset_token = some token ∧ now < u.password_reset_token_expiry) ∧
    (u.password_reset_token = some token → now < u.password_reset_token_expiry →
      passwordValidationErrors common password = [] →
      resetPassword hashPw common u token password now =
        ⟨.ok (), { u with password := hashPw password,
                          password_reset_token := none,
                          password_reset_token_expiry := 0 }⟩) ∧
    (∀ u', (resetPassword hashPw common u token password now).result = .ok () →
      (resetPassword hashPw common u token password now).user = u' →
      ∀ p' now',
        (resetPassword hashPw common u' token p' now').result =
          .error ("token", resetTokenNotValidMsg) ∧
        (resetPassword hashPw common u' token p' now').user = u') ∧
    (u.password_reset_token = some token → u.password_reset_token_expiry ≤ now →
      resetPassword hashPw common u token password now =
        ⟨.error ("token", resetTokenExpiredMsg), u⟩) := by
  have hshape : (resetPassword hashPw common u token password now).result = .ok () →
      u.password_reset_token = some token ∧ now < u.password_reset_token_expiry ∧
      (resetPassword hashPw common u token password now).user =
        { u with password := hashPw password,
                 password_reset_token := none,
                 password_reset_token_expiry := 0 } := by
    intro hok
    by_cases hm : u.password_reset_token = some token
    · by_cases he : u.password_reset_token_expiry ≤ now
      · simp [resetPassword, hm, he] at hok
      · cases hv : passwordValidationErrors common password with
        | nil =>
          exact ⟨hm, Nat.lt_of_not_le he, by simp [resetPassword, hm, he, hv]⟩
        | cons e es => simp [resetPassword, hm, he, hv] at hok
    · simp [resetPassword, hm] at hok
  refine ⟨fun hok => ⟨(hshape hok).1, (hshape hok).2.1⟩, ?_, ?_, ?_⟩
  · intro hm hlt hv
    have he : ¬ u.password_reset_token_expiry ≤ now := Nat.not_le_of_lt hlt
    simp [resetPassword, hm, he, hv]
  · intro u' hok huser p' now'
    have hu' : u'.password_reset_token = none := by
      rw [← huser, (hshape hok).2.2]
    have hm' : ¬ u'.password_reset_token = some token := by
      rw [hu']
      exact fun h => Option.noConfusion h
    constructor <;> simp [resetPassword, hm']
  · intro hm he
    simp [resetPassword, hm, he]

/-- Witness for C8: kate's live token "123456" resets her password at time
50; replaying the very same token immediately fails with "not valid". -/
theorem resetPassword_lifecycle_witness :
    (kate.password_reset_token = some "123456" ∧
      50 < kate.password_reset_token_expiry ∧
      passwordValidationErrors [] "newpassword12345" = []) ∧
    resetPassword (fun p => p ++ "#h") [] kate "123456" "newpassword12345" 50 =
      ⟨.ok (), ⟨4, "kate", "kate@gmail.com", "Kate Austen", "newpassword12345#h", none, 0, none, 0⟩⟩ ∧
    (resetPassword (fun p => p ++ "#h") []
      ⟨4, "kate", "kate@gmail.com", "Kate Austen", "newpassword12345#h", none, 0, none, 0⟩
      "123456" "other-password-1" 60).result = .error ("token", resetTokenNotValidMsg) := by
  have hmain := resetPassword_lifecycle (fun p => p ++ "#h") [] kate
    "123456" "newpassword12345" 50
  have hsucc := hmain.2.1 rfl (by decide) (by decide)
  have hsucc' : resetPassword (fun p => p ++ "#h") [] kate "123456" "newpassword12345" 50 =
      ⟨.ok (), ⟨4, "kate", "kate@gmail.com", "Kate Austen", "newpassword12345#h", none, 0, none, 0⟩⟩ := by
    rw [hsucc]
    rfl
  have hreplay := hmain.2.2.1
    ⟨4, "kate", "kate@gmail.com", "Kate Austen", "newpassword12345#h", none, 0, none, 0⟩
    (by rw [hsucc']) (by rw [hsucc']) "other-password-1" 60
  exact ⟨⟨rfl, by decide, by decide⟩, hsucc', hreplay.1⟩

/-- Claim C3: for every user/group pair there is at most one pending
invitation and invitations are only for non-members — inviting an already
invited user fails with "Already invited", inviting a member fails with
"Already a member", and otherwise an admin inviting an existing user
creates exactly one new invitation for the pair; a successful invitation
preserves at-most-one-invitation-per-pair. -/
theorem invite_unique_per_pair (db : DB) (r uid gid newId : Nat) :
    (∀ g, findGroup db gid = some g → r ∈ g.admins → userExists db uid = true →
      uid ∈ g.users →
      inviteUserToGroup db r uid gid newId = .error ("user", "Already a member")) ∧
    (∀ g, findGroup db gid = some g → r ∈ g.admins → userExists db uid = true →
      uid ∉ g.users → (∃ i ∈ db.invitations, i.user = uid ∧ i.group = gid) →
      inviteUserToGroup db r uid gid newId = .error ("user", "Already invited")) ∧
    (∀ g, findGroup db gid = some g → r ∈ g.admins → userExists db uid = true →
      uid ∉ g.users → (¬ ∃ i ∈ db.invitations, i.user = uid ∧ i.group = gid) →
      inviteUserToGroup db r uid gid newId =
        .ok { db with invitations := db.invitations ++ [⟨newId, uid, gid⟩] }) ∧
    (∀ db', invitationInvariant db → inviteUserToGroup db r uid gid newId = .ok db' →
      invitationInvariant db') := by
  refine ⟨?_, ?_, ?_, ?_⟩
  · intro g hfind hadm hex hmem
    unfold inviteUserToGroup
    rw [hfind]
    simp [hadm, hex, hmem]
  · intro g hfind hadm hex hmem hinv
    obtain ⟨i, hi, hiu, hig⟩ := hinv
    have hany : db.invitations.any (fun i => i.user = uid ∧ i.group = gid) = true :=
      List.any_eq_true.mpr ⟨i, hi, by simp [hiu, hig]⟩
    unfold inviteUserToGroup
    rw [hfind]
    simp [hadm, hex, hmem, hany]
    exact ⟨i, hi, hiu, hig⟩
  · intro g hfind hadm hex hmem hninv
    have hany : db.invitations.any (fun i => i.user = uid ∧ i.group = gid) = false := by
      rw [← Bool.not_eq_true]
      intro hx
      obtain ⟨i, hi, hp⟩ := List.any_eq_true.mp hx
      exact hninv ⟨i, hi, by simpa using hp⟩
    unfold inviteUserToGroup
    rw [hfind]
    simp [hadm, hex, hmem, hany]
    intro x hx hxu hxg
    exact hninv ⟨x, hx, hxu, hxg⟩
  · intro db' hinv hok
    unfold inviteUserToGroup at hok
    cases hfind : findGroup db gid <;> rw [hfind] at hok
    · simp at hok
    · by_cases hadm : r ∈ (‹Group›).admins
      case neg => simp [hadm] at hok
      by_cases hex : userExists db uid = true
      case neg => simp [hadm, hex] at hok
      by_cases hmem : uid ∈ (‹Group›).users
      case pos => simp [hadm, hex, hmem] at hok
      cases hany : db.invitations.any (fun i => i.user = uid ∧ i.group = gid) with
      | true =>
        have hexi : ∃ x ∈ db.invitations, x.user = uid ∧ x.group = gid := by
          obtain ⟨x, hx, hp⟩ := List.any_eq_true.mp hany
          exact ⟨x, hx, by simpa using hp⟩
        simp [hadm, hex, hmem] at hok
        rw [if_pos hexi] at hok
        cases hok
      | false =>
        have hnexi : ¬ ∃ x ∈ db.invitations, x.user = uid ∧ x.group = gid := by
          rintro ⟨x, hx, hp⟩
          have hx' : db.invitations.any (fun i => i.user = uid ∧ i.group = gid) = true :=
            List.any_eq_true.mpr ⟨x, hx, by simpa using hp⟩
          rw [hx'] at hany
          cases hany
        simp [hadm, hex, hmem] at hok
        rw [if_neg hnexi] at hok
        injection hok with h
        rw [← h]
        unfold invitationInvariant at hinv ⊢
        refine List.pairwise_append.mpr ⟨hinv, List.pairwise_singleton _ _, ?_⟩
        intro a ha b hb
        have hb' : b = (⟨newId, uid, gid⟩ : GroupInvitation) := by simpa using hb
        subst hb'
        rintro ⟨hu, hg⟩
        exact hnexi ⟨a, ha, hu, hg⟩

/-- Witness for C3: in `sampleDBInvite`, jack (an admin) inviting the member
boone fails with "Already a member", while inviting juliette (who is
neither member nor invited) creates exactly one invitation. -/
theorem invite_unique_per_pair_witness :
    (findGroup sampleDBInvite 1 = some shephardLab ∧ 1 ∈ shephardLab.admins ∧
      userExists sampleDBInvite 2 = true ∧ 2 ∈ shephardLab.users) ∧
    inviteUserToGroup sampleDBInvite 1 2 1 9 = .error ("user", "Already a member") ∧
    (userExists sampleDBInvite 5 = true ∧ 5 ∉ shephardLab.users ∧
      (¬ ∃ i ∈ sampleDBInvite.invitations, i.user = 5 ∧ i.group = 1)) ∧
    inviteUserToGroup sampleDBInvite 1 5 1 9 =
      .ok { sampleDBInvite with invitations := sampleDBInvite.invitations ++ [⟨9, 5, 1⟩] } := by
  have c := invite_unique_per_pair sampleDBInvite 1 2 1 9
  have c' := invite_unique_per_pair sampleDBInvite 1 5 1 9
  refine ⟨⟨rfl, by decide, by decide, by decide⟩, ?_, ⟨by decide, by decide, ?_⟩, ?_⟩
  · exact c.1 shephardLab rfl (by decide) (by decide) (by decide)
  · simp [sampleDBInvite]
  · exact c'.2.2.1 shephardLab rfl (by decide) (by decide) (by decide)
      (by simp [sampleDBInvite])

/-- A successful `findGroup` returns a stored group with the requested
id. -/
theorem findGroup_mem {db : DB} {gid : Nat} {g : Group}
    (h : findGroup db gid = some g) : g ∈ db.groups ∧ g.id = gid :=
  ⟨List.mem_of_find?_eq_some h, by simpa using List.find?_some h⟩

/-- With pairwise-distinct group ids, two stored groups with the same id
are the same group. -/
theorem group_id_unique {db : DB}
    (hids : db.groups.Pairwise (fun a b => a.id ≠ b.id))
    {g g0 : Group} (hg : g ∈ db.groups) (hg0 : g0 ∈ db.groups)
    (he : g0.id = g.id) : g0 = g := by
  by_contra hne
  have hsymm : Symmetric (fun a b : Group => a.id ≠ b.id) :=
    fun a b h e => h e.symm
  exact (hids.forall hsymm hg0 hg hne) he

/-- Removing an element that is not in the list changes nothing. -/
theorem filter_ne_of_not_mem {l : List Nat} {x : Nat} (hx : x ∉ l) :
    l.filter (fun a => a ≠ x) = l :=
  List.filter_eq_self.mpr (fun a ha => by
    simp only [decide_eq_true_eq]
    exact fun e => hx (e ▸ ha))

/-- Dropping a non-sole admin from a nonempty admin set leaves it
nonempty. -/
theorem filter_admins_ne_nil (g : Group) (x : Nat) (hne : g.admins ≠ [])
    (hnotonly : isOnlyAdmin g x = false) :
    g.admins.filter (fun a => a ≠ x) ≠ [] := by
  by_cases hx : x ∈ g.admins
  · have hc : g.admins.contains x = true := List.elem_eq_true_of_mem hx
    unfold isOnlyAdmin at hnotonly
    rw [hc, Bool.true_and] at hnotonly
    intro hnil
    rw [hnil] at hnotonly
    simp at hnotonly
  · rw [filter_ne_of_not_mem hx]
    exact hne

/-- Stripping a non-sole admin from a group preserves "members imply an
admin" for that group. -/
theorem stripUser_preserves (g0 : Group) (x : Nat)
    (hinv : g0.users ≠ [] → g0.admins ≠ [])
    (hnotonly : isOnlyAdmin g0 x = false) :
    (stripUser x g0).users ≠ [] → (stripUser x g0).admins ≠ [] := by
  intro hu
  have husers : g0.users ≠ [] := by
    intro hnil
    apply hu
    simp [stripUser, hnil]
  exact filter_admins_ne_nil g0 x (hinv husers) hnotonly

/-- Every group of an `updateGroup` result comes from a stored group,
modified when its id matches. -/
theorem mem_updateGroup {db : DB} {gid : Nat} {f : Group → Group} {g' : Group}
    (h : g' ∈ (updateGroup db gid f).groups) :
    ∃ g0 ∈ db.groups, g' = if g0.id = gid then f g0 else g0 := by
  obtain ⟨g0, hg0, he⟩ := List.mem_map.mp h
  exact ⟨g0, hg0, he.symm⟩

/-- Claim C1: every mutation preserves "each group with members has an
admin" — revoking the only admin fails with the "only admin" error,
leaving as the only admin fails with the "no admins" error, deleting an
account that is the only admin of some group fails with the sole-admin
error changing nothing, removal from a group also strips the removed
user's admin status, and each of the four mutations preserves the
invariant (group ids being pairwise distinct, as primary keys are). -/
theorem admin_invariant_enforced (db : DB) (r gid uid : Nat)
    (hids : db.groups.Pairwise (fun a b => a.id ≠ b.id)) :
    (∀ g, findGroup db gid = some g → r ∈ g.admins → userExists db uid = true →
      uid ∈ g.admins → isOnlyAdmin g uid = true →
      revokeGroupAdmin db r gid uid =
        .error ("user", "That user is the only admin of this group")) ∧
    (∀ g, findGroup db gid = some g → r ∈ g.users → isOnlyAdmin g r = true →
      leaveGroup db r gid =
        .error ("group", "If you left the group there would be no admins")) ∧
    ((¬ ∃ c ∈ db.collections, c.owner = r) →
      (∃ g ∈ db.groups, isOnlyAdmin g r = true) →
      (deleteUser db r).result = .error ("user", soleAdminMsg) ∧
      (deleteUser db r).db = db) ∧
    (∀ g, findGroup db gid = some g → r ∈ g.admins → userExists db uid = true →
      uid ∈ g.users →
      (isOnlyAdmin g uid && !(g.users.filter (fun a => a ≠ uid)).isEmpty) = false →
      removeUserFromGroup db r gid uid = .ok (updateGroup db gid (stripUser uid))) ∧
    (adminInvariant db →
      (∀ db', revokeGroupAdmin db r gid uid = .ok db' → adminInvariant db') ∧
      (∀ db', leaveGroup db r gid = .ok db' → adminInvariant db') ∧
      (∀ db', removeUserFromGroup db r gid uid = .ok db' → adminInvariant db') ∧
      adminInvariant (deleteUser db r).db) := by
  refine ⟨?_, ?_, ?_, ?_, ?_⟩
  · intro g hfind hadm hex huadm honly
    unfold revokeGroupAdmin
    rw [hfind]
    simp [hadm, hex, huadm, honly]
  · intro g hfind hmem honly
    unfold leaveGroup
    rw [hfind]
    simp [hmem, honly]
  · intro hnoc hsole
    have hany1 : db.collections.any (fun c => c.owner = r) = false := by
      rw [← Bool.not_eq_true]
      intro hx
      obtain ⟨c, hc, hco⟩ := List.any_eq_true.mp hx
      exact hnoc ⟨c, hc, by simpa using hco⟩
    obtain ⟨g, hg, hoa⟩ := hsole
    have hany2 : db.groups.any (fun g => isOnlyAdmin g r) = true :=
      List.any_eq_true.mpr ⟨g, hg, hoa⟩
    exact ⟨by simp [deleteUser, hany1, hany2], by simp [deleteUser, hany1, hany2]⟩
  · intro g hfind hadm hex hmem hguard
    unfold removeUserFromGroup
    rw [hfind]
    dsimp only []
    rw [if_pos hadm, if_pos hex, if_pos hmem, if_neg (by rw [hguard]; exact Bool.false_ne_true)]
  · intro hinv
    refine ⟨?_, ?_, ?_, ?_⟩
    · intro db' hok
      unfold revokeGroupAdmin at hok
      cases hfind : findGroup db gid <;> rw [hfind] at hok
      · simp at hok
      case some g =>
      dsimp only [] at hok
      obtain ⟨hgmem, hgid⟩ := findGroup_mem hfind
      by_cases hadm : r ∈ g.admins
      case neg => simp [hadm] at hok
      by_cases hex : userExists db uid = true
      case neg => simp [hadm, hex] at hok
      by_cases huadm : uid ∈ g.admins
      case neg => simp [hadm, hex, huadm] at hok
      cases honly : isOnlyAdmin g uid with
      | true => simp [hadm, hex, huadm, honly] at hok
      | false =>
        rw [if_pos hadm, if_pos hex, if_pos huadm, if_neg (by simp [honly])] at hok
        injection hok with h
        rw [← h]
        intro g' hg' hu
        obtain ⟨g0, hg0, he⟩ := mem_updateGroup hg'
        by_cases hid : g0.id = gid
        · have hgg : g0 = g := group_id_unique hids hgmem hg0 (by rw [hid, hgid])
          rw [he, if_pos hid] at hu ⊢
          subst hgg
          exact filter_admins_ne_nil g0 uid (hinv g0 hg0 hu) honly
        · rw [he, if_neg hid] at hu ⊢
          exact hinv g0 hg0 hu
    · intro db' hok
      unfold leaveGroup at hok
      cases hfind : findGroup db gid <;> rw [hfind] at hok
      · simp at hok
      case some g =>
      dsimp only [] at hok
      obtain ⟨hgmem, hgid⟩ := findGroup_mem hfind
      by_cases hmem : r ∈ g.users
      case neg => simp [hmem] at hok
      cases honly : isOnlyAdmin g r with
      | true => simp [hmem, honly] at hok
      | false =>
        rw [if_pos hmem, if_neg (by simp [honly])] at hok
        injection hok with h
        rw [← h]
        intro g' hg' hu
        obtain ⟨g0, hg0, he⟩ := mem_updateGroup hg'
        by_cases hid : g0.id = gid
        · have hgg : g0 = g := group_id_unique hids hgmem hg0 (by rw [hid, hgid])
          rw [he, if_pos hid] at hu ⊢
          subst hgg
          exact stripUser_preserves g0 r (hinv g0 hg0) honly hu
        · rw [he, if_neg hid] at hu ⊢
          exact hinv g0 hg0 hu
    · intro db' hok
      unfold removeUserFromGroup at hok
      cases hfind : findGroup db gid <;> rw [hfind] at hok
      · simp at hok
      case some g =>
      dsimp only [] at hok
      obtain ⟨hgmem, hgid⟩ := findGroup_mem hfind
      by_cases hadm : r ∈ g.admins
      case neg => simp [hadm] at hok
      by_cases hex : userExists db uid = true
      case neg => simp [hadm, hex] at hok
      by_cases hmem : uid ∈ g.users
      case neg => simp [hadm, hex, hmem] at hok
      cases hguard : isOnlyAdmin g uid && !(g.users.filter (fun a => a ≠ uid)).isEmpty with
      | true =>
        rw [if_pos hadm, if_pos hex, if_pos hmem, if_pos hguard] at hok
        cases hok
      | false =>
        rw [if_pos hadm, if_pos hex, if_pos hmem, if_neg (by rw [hguard]; exact Bool.false_ne_true)] at hok
        injection hok with h
        rw [← h]
        intro g' hg' hu
        obtain ⟨g0, hg0, he⟩ := mem_updateGroup hg'
        by_cases hid : g0.id = gid
        · have hgg : g0 = g := group_id_unique hids hgmem hg0 (by rw [hid, hgid])
          rw [he, if_pos hid] at hu ⊢
          subst hgg
          have hfil : g0.users.filter (fun a => a ≠ uid) ≠ [] := hu
          have hnotonly : isOnlyAdmin g0 uid = false := by
            cases hoa : isOnlyAdmin g0 uid
            · rfl
            · have hie : (g0.users.filter (fun a => a ≠ uid)).isEmpty = false := by
                cases hfc : g0.users.filter (fun a => a ≠ uid) with
                | nil => exact absurd hfc hfil
                | cons a as => rfl
              rw [hoa, hie] at hguard
              simp at hguard
          exact stripUser_preserves g0 uid (hinv g0 hg0) hnotonly hu
        · rw [he, if_neg hid] at hu ⊢
          exact hinv g0 hg0 hu
    · by_cases hany1 : db.collections.any (fun c => c.owner = r) = true
      · have hdb : (deleteUser db r).db = db := by simp [deleteUser, hany1]
        rw [hdb]
        exact hinv
      · by_cases hany2 : db.groups.any (fun g => isOnlyAdmin g r) = true
        · have hdb : (deleteUser db r).db = db := by simp [deleteUser, hany1, hany2]
          rw [hdb]
          exact hinv
        · have hdb : (deleteUser db r).db.groups = db.groups.map (stripUser r) := by
            simp [deleteUser, hany1, hany2]
          intro g' hg' hu
          rw [hdb] at hg'
          obtain ⟨g0, hg0, he⟩ := List.mem_map.mp hg'
          have hnotonly : isOnlyAdmin g0 r = false := by
            cases hoa : isOnlyAdmin g0 r
            · rfl
            · exact absurd (List.any_eq_true.mpr ⟨g0, hg0, hoa⟩) hany2
          rw [← he] at hu ⊢
          exact stripUser_preserves g0 r (hinv g0 hg0) hnotonly hu

/-- Witness for C1: in the sample databases, revoking or abandoning the sole
admin fails with the "only admin" / "no admins" errors, account deletion of
the sole admin fails, and removing boone (one of two admins) keeps the
invariant. -/
theorem admin_invariant_enforced_witness :
    sampleDB.groups.Pairwise (fun a b => a.id ≠ b.id) ∧
    revokeGroupAdmin sampleDB 1 1 1 =
      .error ("user", "That user is the only admin of this group") ∧
    leaveGroup sampleDB 1 1 =
      .error ("group", "If you left the group there would be no admins") ∧
    (deleteUser sampleDBNoCollections 1).result = .error ("user", soleAdminMsg) ∧
    removeUserFromGroup sampleDBTwoAdmins 1 1 2 =
      .ok (updateGroup sampleDBTwoAdmins 1 (stripUser 2)) ∧
    adminInvariant (updateGroup sampleDBTwoAdmins 1 (stripUser 2)) := by
  have t1 := admin_invariant_enforced sampleDB 1 1 1 (by simp [sampleDB])
  have t2 := admin_invariant_enforced sampleDBNoCollections 1 1 1
    (by simp [sampleDBNoCollections])
  have t3 := admin_invariant_enforced sampleDBTwoAdmins 1 1 2
    (by simp [sampleDBTwoAdmins])
  have hok := t3.2.2.2.1 ⟨1, "Shephard Lab", "", [1, 2, 3], [1, 2]⟩ rfl
    (by decide) (by decide) (by decide) (by decide)
  refine ⟨by simp [sampleDB], ?_, ?_, ?_, hok, ?_⟩
  · exact t1.1 shephardLab rfl (by decide) (by decide) (by decide) (by decide)
  · exact t1.2.1 shephardLab rfl (by decide) (by decide)
  · exact (t2.2.2.1 (by simp [sampleDBNoCollections])
      ⟨shephardLab, by simp [sampleDBNoCollections], by decide⟩).1
  · exact (t3.2.2.2.2 (by unfold adminInvariant; decide)).2.2.1 _ hok

end IMaps
